import Mathlib

/-! ErasureCodeIsa: the ISA-L erasure-code codec of Ceph.

A shallow embedding of `src/erasure-code/isa/ErasureCodeIsa.h`.

The header defines, with bodies, the two constructors
(`ErasureCodeIsa::ErasureCodeIsa`, `ErasureCodeIsaDefault::ErasureCodeIsaDefault`)
and the two accessors `get_chunk_count` and `get_data_chunk_count`.  It only
declares `get_chunk_size`, `get_alignment`, `encode_chunks`, `decode_chunks`,
`isa_encode`, `isa_decode`, `prepare`, `init` and `parse`; their bodies live in
`ErasureCodeIsa.cc`, which is not part of the sources at hand.

Machine integers: `int` is a 32-bit two's complement integer, `unsigned int`
a 32-bit unsigned integer.  They are embedded as `Int` and `Nat` with the
reductions written out.
-/

/-! ## Machine integers -/

/-- Number of values of a 32-bit `unsigned int`, 2^32. -/
def UINT_RANGE : Nat := 4294967296

/-- Largest value of a 32-bit `int` plus one, 2^31. -/
def INT_LIMIT : Int := 2147483648

/-- The value is representable in a 32-bit `int`. -/
def fitsInt (x : Int) : Prop := -INT_LIMIT ≤ x ∧ x < INT_LIMIT

instance (x : Int) : Decidable (fitsInt x) := by
  unfold fitsInt; exact inferInstance

/-- Result of an `int` operation kept in 32-bit two's complement: the value is
unchanged when it is representable and wraps around otherwise. -/
def wrapInt (x : Int) : Int := (x + INT_LIMIT) % (UINT_RANGE : Int) - INT_LIMIT

/-- Conversion of an `int` to `unsigned int` (as in `return k;` from a function
returning `unsigned int`): the value modulo 2^32. -/
def toUnsigned (x : Int) : Nat := (x % (UINT_RANGE : Int)).toNat

/-! ## Data model -/

/-- `#define DEFAULT_RULESET_ROOT "default"` -/
def DEFAULT_RULESET_ROOT : String := "default"

/-- `#define DEFAULT_RULESET_FAILURE_DOMAIN "host"` -/
def DEFAULT_RULESET_FAILURE_DOMAIN : String := "host"

/-- `enum eMatrix { kVandermonde = 0, kCauchy = 1 };` -/
inductive eMatrix where
  | kVandermonde
  | kCauchy
  deriving DecidableEq, Repr

/-- Integer value of an enumerator of `eMatrix`. -/
def eMatrix.toInt : eMatrix → Int
  | .kVandermonde => 0
  | .kCauchy => 1

/-- The data members of `class ErasureCodeIsa`.  The type of the table cache
(`ErasureCodeIsaTableCache`, declared in a header that is not at hand) is a
parameter; `technique` is the C string the pointer refers to. -/
structure ErasureCodeIsa (TableCache : Type) where
  k : Int
  m : Int
  w : Int
  tcache : TableCache
  technique : String
  ruleset_root : String
  ruleset_failure_domain : String

/-- The data members of `class ErasureCodeIsaDefault : public ErasureCodeIsa`.
The two `unsigned char*` members are `none` when null and otherwise hold the
bytes they point to. -/
structure ErasureCodeIsaDefault (TableCache : Type) extends ErasureCodeIsa TableCache where
  matrixtype : Int
  encode_coeff : Option (List Nat)
  encode_tbls : Option (List Nat)

/-! ## Constructors -/

/-- The constructor
`ErasureCodeIsa::ErasureCodeIsa(const char *_technique, ErasureCodeIsaTableCache &_tcache)`
(named `ctor`, the class name being taken by the structure): the member
initialiser list `k(0), m(0), w(0), tcache(_tcache), technique(_technique),
ruleset_root(DEFAULT_RULESET_ROOT), ruleset_failure_domain(DEFAULT_RULESET_FAILURE_DOMAIN)`
and an empty body. -/
def ErasureCodeIsa.ctor {TableCache : Type} (_technique : String)
    (_tcache : TableCache) : ErasureCodeIsa TableCache :=
  { k := 0
    m := 0
    w := 0
    tcache := _tcache
    technique := _technique
    ruleset_root := DEFAULT_RULESET_ROOT
    ruleset_failure_domain := DEFAULT_RULESET_FAILURE_DOMAIN }

/-- The constructor `ErasureCodeIsaDefault::ErasureCodeIsaDefault(ErasureCodeIsaTableCache &_tcache,
int matrix = kVandermonde)`: base `ErasureCodeIsa("default", _tcache)`,
`encode_coeff(0), encode_tbls(0)`, body `matrixtype = matrix;`.
The argument `matrix` is `none` when the caller omits it, and then the default
argument `kVandermonde` is passed. -/
def ErasureCodeIsaDefault.ctor {TableCache : Type} (_tcache : TableCache)
    (matrix : Option Int) : ErasureCodeIsaDefault TableCache :=
  { toErasureCodeIsa := ErasureCodeIsa.ctor "default" _tcache
    matrixtype := matrix.getD eMatrix.kVandermonde.toInt
    encode_coeff := none
    encode_tbls := none }

/-! ## Accessors -/

/-- `unsigned int get_chunk_count() const { return k + m; }`: the `int` sum,
converted to `unsigned int`. -/
def ErasureCodeIsa.get_chunk_count {TableCache : Type} (c : ErasureCodeIsa TableCache) : Nat :=
  toUnsigned (wrapInt (c.k + c.m))

/-- `unsigned int get_data_chunk_count() const { return k; }`: `k` converted to
`unsigned int`. -/
def ErasureCodeIsa.get_data_chunk_count {TableCache : Type} (c : ErasureCodeIsa TableCache) :
    Nat :=
  toUnsigned c.k

/-- A call of the `const` member function `get_chunk_count` in state-passing
form: the returned value together with the object after the call.  The function
body has no assignment, so the object after the call is the object before it. -/
def ErasureCodeIsa.call_get_chunk_count {TableCache : Type} (c : ErasureCodeIsa TableCache) :
    Nat × ErasureCodeIsa TableCache :=
  (c.get_chunk_count, c)

/-- A call of the `const` member function `get_data_chunk_count` in
state-passing form. -/
def ErasureCodeIsa.call_get_data_chunk_count {TableCache : Type}
    (c : ErasureCodeIsa TableCache) : Nat × ErasureCodeIsa TableCache :=
  (c.get_data_chunk_count, c)

/-! ## Chunk size -/

/-- The quotient `x / d` rounded up to the next integer. -/
def ceil_div (x d : Nat) : Nat := (x + d - 1) / d

/-- The value `x` rounded up to a multiple of `alignment`. -/
def round_up (x alignment : Nat) : Nat := ((x + alignment - 1) / alignment) * alignment

/-- Modelled from the spec: the body of `ErasureCodeIsa::get_chunk_size`, which the
header only declares (`unsigned int get_chunk_size(unsigned int object_size) const`,
with the body in `ErasureCodeIsa.cc`), and the value of the pure virtual
`get_alignment()`, which is the parameter `alignment`.
Section 4.2 of the specification: "computes `ceil(object_size / k)` then rounds
up to the codec's required byte alignment; returns the common per-chunk length",
and, "for `object_size == 0` (returns the alignment quantum, never zero, since
every chunk must be independently readable)".
The value is the integer the specification prescribes; the declared return type
`unsigned int` holds it when it is below 2^32. -/
def ErasureCodeIsa.get_chunk_size {TableCache : Type} (c : ErasureCodeIsa TableCache)
    (alignment : Nat) (object_size : Nat) : Nat :=
  if object_size = 0 then alignment
  else round_up (ceil_div object_size c.k.toNat) alignment

/-! ## Decoding -/

/-- A chunk (`bufferlist`): the list of its bytes. -/
abbrev Chunk : Type := List Nat

/-- The chunk map `std::map<int, bufferlist>`: an association list from chunk
index to buffer; an index is present when some pair carries it. -/
abbrev ChunkMap : Type := List (Int × Chunk)

/-- The error kinds of section 7 of the specification. -/
inductive CodecError where
  | configuration
  | size_mismatch
  | unrecoverable_loss
  | singular_matrix
  deriving DecidableEq, Repr

/-- Modelled from the spec: the Matrix Engine (section 4.1) and the Coefficient
Table Cache (section 4.3) as the codec uses them in `decode`.  Their code
(`ErasureCodeIsa.cc`, `ErasureCodeIsaTableCache`, the ISA-L field routines) is
absent and the specification leaves the field polynomial, the Vandermonde
generator and the Cauchy element selection open, so they are parameters:
`decode_table k m kind erasures` obtains, from the cache or by inverting the
selected sub-matrix, the decode table of an erasure pattern and fails when the
sub-matrix is singular; `reconstruct table index available` is the
field-weighted sum over the available chunks for one missing index. -/
structure MatrixEngine where
  Table : Type
  decode_table : Nat → Nat → Int → List Nat → Except CodecError Table
  reconstruct : Table → Int → ChunkMap → Chunk

/-- Modelled from the spec: step 1 of `decode` (section 4.2), "Compute the
erasure set = all indices in `0..k+m-1` not present in `available_chunks`", in
increasing order. -/
def erasure_set (chunk_count : Nat) (chunks : ChunkMap) : List Nat :=
  (List.range chunk_count).filter (fun i => (chunks.lookup (i : Int)).isNone)

/-- Modelled from the spec: the body of `ErasureCodeIsa::decode_chunks`
(`int decode_chunks(const std::set<int> &want_to_read, const std::map<int, bufferlist> &chunks,
std::map<int, bufferlist> *decoded)`, declared in the header, defined in
`ErasureCodeIsa.cc`) with the `isa_decode` it dispatches to, for the class
`ErasureCodeIsaDefault`.  The four steps of `decode` in section 4.2:
1. the erasure set is computed and the call "fails with an unrecoverable-loss
   error if `|erasure set| > m`";
2. the decode table for this `(k, m, matrix kind, erasure set)` is obtained;
3. each requested index is reconstructed from the available chunks with that one
   table;
4. a requested index that is present is returned unchanged.
The result is the error, or the map written to `*decoded`. -/
def ErasureCodeIsaDefault.decode_chunks {TableCache : Type} (E : MatrixEngine)
    (c : ErasureCodeIsaDefault TableCache) (want_to_read : List Int) (chunks : ChunkMap) :
    Except CodecError ChunkMap :=
  let erasures := erasure_set c.get_chunk_count chunks
  if c.m < (erasures.length : Int) then
    Except.error CodecError.unrecoverable_loss
  else
    match E.decode_table c.get_data_chunk_count (toUnsigned c.m) c.matrixtype erasures with
    | Except.error e => Except.error e
    | Except.ok table =>
      Except.ok (want_to_read.map (fun i =>
        match chunks.lookup i with
        | some buf => (i, buf)
        | none => (i, E.reconstruct table i chunks)))

/-! ## Concrete codecs used at the concrete inputs below -/

/-- A codec with `k = 1`, `m = 1` (fields as `init` would leave them for the
profile `k=1 m=1`). -/
def codec_1_1 : ErasureCodeIsaDefault Unit :=
  { ErasureCodeIsaDefault.ctor () none with k := 1, m := 1, w := 8 }

/-- A codec with `k = 4`, `m = 2`. -/
def codec_4_2 : ErasureCodeIsaDefault Unit :=
  { ErasureCodeIsaDefault.ctor () none with k := 4, m := 2, w := 8 }

/-- A matrix engine whose tables carry no information and whose reconstruction
returns the empty chunk; it stands for the absent engine where only the
orchestration of `decode_chunks` matters. -/
def null_engine : MatrixEngine :=
  { Table := Unit
    decode_table := fun _ _ _ _ => Except.ok ()
    reconstruct := fun _ _ _ => [] }

/-! ## Machine-integer lemmas -/

theorem toUnsigned_cast (x : Int) : ((toUnsigned x : Nat) : Int) = x % 4294967296 := by
  unfold toUnsigned UINT_RANGE
  have h := Int.emod_nonneg x (show (4294967296 : Int) ≠ 0 by norm_num)
  simp only [Nat.cast_ofNat]
  omega

theorem toUnsigned_wrapInt (x : Int) : toUnsigned (wrapInt x) = toUnsigned x := by
  have h1 := toUnsigned_cast (wrapInt x)
  have h2 := toUnsigned_cast x
  have h3 : wrapInt x % 4294967296 = x % 4294967296 := by
    unfold wrapInt UINT_RANGE INT_LIMIT
    simp only [Nat.cast_ofNat]
    omega
  omega

theorem toUnsigned_of_fits (x : Int) (h0 : 0 ≤ x) (hx : fitsInt x) :
    ((toUnsigned x : Nat) : Int) = x := by
  have h := toUnsigned_cast x
  unfold fitsInt INT_LIMIT at hx
  omega

/-! ## Constructors and accessors -/

/-- C5: for every codec state `get_chunk_count()` is the sum `k + m` of the two
fields converted to `unsigned int` (the sum modulo 2^32), and it is the integer
`k + m` itself whenever `k >= 0`, `m >= 0` and `k + m` fits in an `int`. -/
theorem get_chunk_count_is_sum {T : Type} (c : ErasureCodeIsa T) :
    ((c.get_chunk_count : Nat) : Int) = (c.k + c.m) % 4294967296 ∧
    (0 ≤ c.k → 0 ≤ c.m → fitsInt (c.k + c.m) →
      ((c.get_chunk_count : Nat) : Int) = c.k + c.m) := by
  unfold ErasureCodeIsa.get_chunk_count
  rw [toUnsigned_wrapInt]
  refine ⟨toUnsigned_cast _, fun hk hm hfit => ?_⟩
  exact toUnsigned_of_fits _ (by omega) hfit

/-- C5, at the codec with `k = 4`, `m = 2`: the chunk count is 6. -/
theorem get_chunk_count_is_sum_witness :
    ((codec_4_2.get_chunk_count : Nat) : Int) = 4 + 2 :=
  (get_chunk_count_is_sum codec_4_2.toErasureCodeIsa).2 (by decide) (by decide) (by decide)

/-- C6: for every codec state `get_data_chunk_count()` is the field `k` converted
to `unsigned int` (`k` modulo 2^32); it is the integer `k` itself whenever
`k >= 0` (for `k` an `int`), and two states with the same `k` give the same
result whatever their `m` and `w` are. -/
theorem get_data_chunk_count_is_k {T : Type} (c : ErasureCodeIsa T) :
    ((c.get_data_chunk_count : Nat) : Int) = c.k % 4294967296 ∧
    (fitsInt c.k → 0 ≤ c.k → ((c.get_data_chunk_count : Nat) : Int) = c.k) ∧
    (∀ c' : ErasureCodeIsa T, c'.k = c.k →
      c'.get_data_chunk_count = c.get_data_chunk_count) := by
  unfold ErasureCodeIsa.get_data_chunk_count
  refine ⟨toUnsigned_cast _, fun hfit hk => toUnsigned_of_fits _ hk hfit, fun c' h => ?_⟩
  rw [h]

/-- C6, at the codec with `k = 4`, `m = 2` and at the one with `k = 4`, `m = 0`,
`w = 0`: the data chunk count is 4 for both. -/
theorem get_data_chunk_count_is_k_witness :
    ((codec_4_2.get_data_chunk_count : Nat) : Int) = 4 ∧
    ({ ErasureCodeIsa.ctor "default" () with k := 4 } : ErasureCodeIsa Unit).get_data_chunk_count
      = codec_4_2.get_data_chunk_count :=
  ⟨(get_data_chunk_count_is_k codec_4_2.toErasureCodeIsa).2.1 (by decide) (by decide),
   (get_data_chunk_count_is_k codec_4_2.toErasureCodeIsa).2.2 _ rfl⟩

/-- C7 as stated fails: the instance returned by either constructor has `k = 0`
and `m = 0`, so `k >= 1` and `m >= 1` do not hold for it. -/
theorem ctor_parameters_not_valid :
    ¬ (1 ≤ (ErasureCodeIsa.ctor "default" ()).k ∧ 1 ≤ (ErasureCodeIsa.ctor "default" ()).m) ∧
    ¬ (1 ≤ (ErasureCodeIsaDefault.ctor () (some eMatrix.kCauchy.toInt)).k ∧
       1 ≤ (ErasureCodeIsaDefault.ctor () (some eMatrix.kCauchy.toInt)).m) ∧
    ¬ 1 ≤ (ErasureCodeIsaDefault.ctor () none).k := by
  decide

/-- C7, amended: for every technique name, table cache and matrix kind, the codec
returned by the `ErasureCodeIsa` constructor and the one returned by the
`ErasureCodeIsaDefault` constructor have `k = 0` and `m = 0`; the constructors
receive no `k` or `m` and reject nothing. -/
theorem ctor_parameters_zero {T : Type} (technique : String) (tcache : T)
    (matrix : Option Int) :
    (ErasureCodeIsa.ctor technique tcache).k = 0 ∧
    (ErasureCodeIsa.ctor technique tcache).m = 0 ∧
    (ErasureCodeIsaDefault.ctor tcache matrix).k = 0 ∧
    (ErasureCodeIsaDefault.ctor tcache matrix).m = 0 :=
  ⟨rfl, rfl, rfl, rfl⟩

/-- C8: `get_chunk_count()` and `get_data_chunk_count()` are pure accessors: a
call of either leaves the object, hence every field, unchanged; two states that
agree on `k` and `m` give the same results from both; and a second call returns
what the first returned. -/
theorem accessors_are_pure {T : Type} (c c' : ErasureCodeIsa T) :
    c.call_get_chunk_count.2 = c ∧
    c.call_get_data_chunk_count.2 = c ∧
    (c.k = c'.k → c.m = c'.m →
      c.call_get_chunk_count.1 = c'.call_get_chunk_count.1 ∧
      c.call_get_data_chunk_count.1 = c'.call_get_data_chunk_count.1) ∧
    c.call_get_chunk_count.2.call_get_chunk_count.1 = c.call_get_chunk_count.1 ∧
    c.call_get_data_chunk_count.2.call_get_data_chunk_count.1
      = c.call_get_data_chunk_count.1 ∧
    c.call_get_chunk_count.2.call_get_data_chunk_count.1
      = c.call_get_data_chunk_count.1 ∧
    c.call_get_data_chunk_count.2.call_get_chunk_count.1 = c.call_get_chunk_count.1 := by
  refine ⟨rfl, rfl, fun hk hm => ?_, rfl, rfl, rfl, rfl⟩
  simp only [ErasureCodeIsa.call_get_chunk_count, ErasureCodeIsa.call_get_data_chunk_count,
    ErasureCodeIsa.get_chunk_count, ErasureCodeIsa.get_data_chunk_count, hk, hm, and_self]

/-- C8, at two states with `k = 4`, `m = 2` that differ in `w`, `technique` and
the two ruleset fields: both accessors return the same values on them. -/
theorem accessors_are_pure_witness :
    codec_4_2.toErasureCodeIsa.call_get_chunk_count.1
      = ({ k := 4, m := 2, w := 16, tcache := (), technique := "other", ruleset_root := "r",
           ruleset_failure_domain := "osd" } : ErasureCodeIsa Unit).call_get_chunk_count.1 ∧
    codec_4_2.toErasureCodeIsa.call_get_data_chunk_count.1
      = ({ k := 4, m := 2, w := 16, tcache := (), technique := "other", ruleset_root := "r",
           ruleset_failure_domain := "osd" } : ErasureCodeIsa Unit).call_get_data_chunk_count.1 :=
  (accessors_are_pure codec_4_2.toErasureCodeIsa _).2.2.1 rfl rfl

/-- C9: right after construction, for every technique name and table cache, the
codec has `k = 0`, `m = 0`, `w = 0`, `ruleset_root = "default"` and
`ruleset_failure_domain = "host"`, and both `get_chunk_count()` and
`get_data_chunk_count()` return 0. -/
theorem ctor_initial_state {T : Type} (technique : String) (tcache : T) :
    (ErasureCodeIsa.ctor technique tcache).k = 0 ∧
    (ErasureCodeIsa.ctor technique tcache).m = 0 ∧
    (ErasureCodeIsa.ctor technique tcache).w = 0 ∧
    (ErasureCodeIsa.ctor technique tcache).ruleset_root = "default" ∧
    (ErasureCodeIsa.ctor technique tcache).ruleset_failure_domain = "host" ∧
    (ErasureCodeIsa.ctor technique tcache).technique = technique ∧
    (ErasureCodeIsa.ctor technique tcache).tcache = tcache ∧
    (ErasureCodeIsa.ctor technique tcache).get_chunk_count = 0 ∧
    (ErasureCodeIsa.ctor technique tcache).get_data_chunk_count = 0 :=
  ⟨rfl, rfl, rfl, rfl, rfl, rfl, rfl, rfl, rfl⟩

/-- C10: the `ErasureCodeIsaDefault` constructor stores the given matrix selector
unchanged as `matrixtype`; with the selector omitted it stores `kVandermonde`,
which is 0 and differs from `kCauchy`, which is 1; and for every selector the
new codec has technique `"default"` and null `encode_coeff` and `encode_tbls`. -/
theorem default_ctor_state {T : Type} (tcache : T) (matrix : Int) (selector : Option Int) :
    (ErasureCodeIsaDefault.ctor tcache (some matrix)).matrixtype = matrix ∧
    (ErasureCodeIsaDefault.ctor tcache none).matrixtype = eMatrix.kVandermonde.toInt ∧
    eMatrix.kVandermonde.toInt = 0 ∧
    eMatrix.kCauchy.toInt = 1 ∧
    eMatrix.kVandermonde.toInt ≠ eMatrix.kCauchy.toInt ∧
    (ErasureCodeIsaDefault.ctor tcache selector).technique = "default" ∧
    (ErasureCodeIsaDefault.ctor tcache selector).encode_coeff = none ∧
    (ErasureCodeIsaDefault.ctor tcache selector).encode_tbls = none :=
  ⟨rfl, rfl, rfl, rfl, by decide, rfl, rfl, rfl⟩

/-! ## Chunk size -/

theorem ceil_div_le_iff (x d n : Nat) (hd : 1 ≤ d) : ceil_div x d ≤ n ↔ x ≤ n * d := by
  unfold ceil_div
  rw [← Nat.lt_succ_iff, Nat.div_lt_iff_lt_mul (by omega), Nat.succ_mul]
  omega

theorem ceil_div_eq_ceil (x : Nat) (k : Int) (hk : 1 ≤ k) :
    ⌈(x : ℚ) / (k : ℚ)⌉₊ = ceil_div x k.toNat := by
  have hkn : (k : ℚ) = ((k.toNat : Nat) : ℚ) := by
    have : ((k.toNat : Nat) : Int) = k := Int.toNat_of_nonneg (by omega)
    exact_mod_cast this.symm
  have hd : 1 ≤ k.toNat := by omega
  have hpos : (0 : ℚ) < ((k.toNat : Nat) : ℚ) := by exact_mod_cast hd
  have key : ∀ n : Nat, ⌈(x : ℚ) / (k : ℚ)⌉₊ ≤ n ↔ ceil_div x k.toNat ≤ n := by
    intro n
    rw [Nat.ceil_le, ceil_div_le_iff x _ n hd, hkn, div_le_iff₀ hpos]
    exact_mod_cast Iff.rfl
  exact le_antisymm ((key _).2 le_rfl) ((key _).1 le_rfl)

theorem round_up_isLeast (x a : Nat) (ha : 1 ≤ a) :
    IsLeast {n : Nat | a ∣ n ∧ x ≤ n} (round_up x a) := by
  have hr : round_up x a = ceil_div x a * a := rfl
  refine ⟨⟨?_, ?_⟩, ?_⟩
  · rw [hr]; exact Dvd.intro_left _ rfl
  · rw [hr]; exact (ceil_div_le_iff x a _ ha).1 le_rfl
  · rintro n ⟨⟨q, rfl⟩, hxn⟩
    rw [hr]
    have : ceil_div x a ≤ q := (ceil_div_le_iff x a q ha).2 (by rw [Nat.mul_comm]; exact hxn)
    calc ceil_div x a * a ≤ q * a := Nat.mul_le_mul_right a this
      _ = a * q := Nat.mul_comm q a

theorem get_chunk_size_isLeast_pos {T : Type} (c : ErasureCodeIsa T) (a os : Nat)
    (hk : 1 ≤ c.k) (ha : 1 ≤ a) :
    IsLeast {n : Nat | 0 < n ∧ a ∣ n ∧ ⌈(os : ℚ) / (c.k : ℚ)⌉₊ ≤ n}
      (c.get_chunk_size a os) := by
  have hd : 1 ≤ c.k.toNat := by omega
  rw [ceil_div_eq_ceil os c.k hk]
  unfold ErasureCodeIsa.get_chunk_size
  by_cases h0 : os = 0
  · rw [if_pos h0]
    have hc : ceil_div os c.k.toNat = 0 := by
      rw [h0]
      exact Nat.le_zero.1 ((ceil_div_le_iff 0 _ 0 hd).2 (Nat.zero_le _))
    refine ⟨⟨by omega, dvd_refl a, by omega⟩, ?_⟩
    rintro n ⟨hn, hdiv, _⟩
    exact Nat.le_of_dvd hn hdiv
  · rw [if_neg h0]
    have hl := round_up_isLeast (ceil_div os c.k.toNat) a ha
    have hc : 1 ≤ ceil_div os c.k.toNat := by
      by_contra hlt
      have hle : ceil_div os c.k.toNat ≤ 0 := by omega
      have := (ceil_div_le_iff os _ 0 hd).1 hle
      omega
    refine ⟨⟨?_, hl.1.1, hl.1.2⟩, ?_⟩
    · have := hl.1.2
      omega
    · rintro n ⟨_, hdiv, hge⟩
      exact hl.2 ⟨hdiv, hge⟩

theorem get_chunk_size_eq_round_up {T : Type} (c : ErasureCodeIsa T) (a os : Nat)
    (hk : 1 ≤ c.k) (hos : 1 ≤ os) :
    c.get_chunk_size a os = round_up ⌈(os : ℚ) / (c.k : ℚ)⌉₊ a := by
  rw [ceil_div_eq_ceil os c.k hk]
  unfold ErasureCodeIsa.get_chunk_size
  rw [if_neg (by omega)]

/-! ## Decoding -/

theorem erasure_set_length (n : Nat) (chunks : ChunkMap) :
    (erasure_set n chunks).length
      = ((Finset.range n).filter (fun i : Nat => (i : Int) ∉ chunks.map Prod.fst)).card := by
  have hnd : (erasure_set n chunks).Nodup := (List.nodup_range n).filter _
  rw [← List.toFinset_card_of_nodup hnd]
  congr 1
  ext i
  simp only [erasure_set, List.mem_toFinset, List.mem_filter, List.mem_range, Finset.mem_filter,
    Finset.mem_range, Option.isNone_iff_eq_none, List.lookup_eq_none_iff, List.mem_map,
    not_exists, not_and]
  constructor
  · rintro ⟨hi, h⟩
    refine ⟨hi, fun p hp hpi => ?_⟩
    have := h p hp
    rw [← hpi] at this
    exact absurd rfl (bne_iff_ne.1 this)
  · rintro ⟨hi, h⟩
    refine ⟨hi, fun p hp => ?_⟩
    exact bne_iff_ne.2 (fun e => h p hp e.symm)

/-- C2: for every valid `(k, m)` (`k >= 1`, `m >= 1`, `k + m <= 255`) and every
decode call in which more than `m` of the `k + m` chunk indices are absent from
the available chunks, `decode_chunks` fails with the unrecoverable-loss error and
returns no reconstructed chunk, whatever the requested indices and whatever the
matrix engine. -/
theorem decode_chunks_unrecoverable {T : Type} (E : MatrixEngine)
    (c : ErasureCodeIsaDefault T) (want_to_read : List Int) (chunks : ChunkMap)
    (hk : 1 ≤ c.k) (hm : 1 ≤ c.m) (hkm : c.k + c.m ≤ 255)
    (hlost : c.m < ((((Finset.range (c.k + c.m).toNat).filter
      (fun i : Nat => (i : Int) ∉ chunks.map Prod.fst)).card : Nat) : Int)) :
    c.decode_chunks E want_to_read chunks = Except.error CodecError.unrecoverable_loss ∧
    ∀ decoded : ChunkMap, c.decode_chunks E want_to_read chunks ≠ Except.ok decoded := by
  have hcount : c.get_chunk_count = (c.k + c.m).toNat := by
    unfold ErasureCodeIsa.get_chunk_count
    rw [toUnsigned_wrapInt]
    have := toUnsigned_cast (c.k + c.m)
    omega
  have hfail : c.decode_chunks E want_to_read chunks
      = Except.error CodecError.unrecoverable_loss := by
    unfold ErasureCodeIsaDefault.decode_chunks
    simp only [hcount, erasure_set_length]
    rw [if_pos hlost]
  refine ⟨hfail, fun decoded h => ?_⟩
  rw [hfail] at h
  cases h

/-- C2, at `k = 4`, `m = 2` with the chunks 0, 1 and 4 available: three chunks
are lost and decoding fails. -/
theorem decode_chunks_unrecoverable_witness :
    codec_4_2.decode_chunks null_engine [2, 3, 5] [(0, [1]), (1, [2]), (4, [3])]
      = Except.error CodecError.unrecoverable_loss :=
  (decode_chunks_unrecoverable null_engine codec_4_2 [2, 3, 5] [(0, [1]), (1, [2]), (4, [3])]
    (by decide) (by decide) (by decide) (by decide)).1

/-- C3 as stated fails.  With `k = 4` and alignment 32, `get_chunk_size(0)` is the
alignment quantum 32, while the smallest multiple of 32 that is at least
`ceil(0 / 4)` is 0.  And with `k = 1`, alignment 32 and object size 2^32 - 1 the
smallest multiple of 32 that is at least `ceil(object_size / k)` is 2^32, which
is not a value of the return type `unsigned int`. -/
theorem get_chunk_size_least_fails :
    (1 ≤ codec_4_2.k ∧ (1 : Nat) ≤ 32 ∧ codec_4_2.get_chunk_size 32 0 = 32 ∧
      ¬ IsLeast {n : Nat | 32 ∣ n ∧ ⌈((0 : Nat) : ℚ) / (codec_4_2.k : ℚ)⌉₊ ≤ n}
        (codec_4_2.get_chunk_size 32 0)) ∧
    (1 ≤ codec_1_1.k ∧
      IsLeast {n : Nat | 32 ∣ n ∧ ⌈((4294967295 : Nat) : ℚ) / (codec_1_1.k : ℚ)⌉₊ ≤ n}
        4294967296 ∧
      ¬ 4294967296 < UINT_RANGE) := by
  have h0 : codec_4_2.get_chunk_size 32 0 = 32 := by decide
  refine ⟨⟨by decide, by decide, h0, fun h => ?_⟩, by decide, ?_, by decide⟩
  · rw [h0] at h
    have hmem : (0 : Nat) ∈ {n : Nat | 32 ∣ n ∧
        ⌈((0 : Nat) : ℚ) / (codec_4_2.k : ℚ)⌉₊ ≤ n} := by
      refine ⟨dvd_zero 32, ?_⟩
      rw [ceil_div_eq_ceil 0 codec_4_2.k (by decide)]
      decide
    have := h.2 hmem
    omega
  · rw [ceil_div_eq_ceil 4294967295 codec_1_1.k (by decide)]
    have hl := round_up_isLeast (ceil_div 4294967295 codec_1_1.k.toNat) 32 (by decide)
    have hv : round_up (ceil_div 4294967295 codec_1_1.k.toNat) 32 = 4294967296 := by decide
    rw [hv] at hl
    exact hl

/-- C3, amended: for every codec with `k >= 1`, every alignment `a >= 1` and every
object size for which some positive multiple of `a` that is at least
`ceil(object_size / k)` is below 2^32, `get_chunk_size(object_size)` is the
smallest positive multiple of `a` that is greater than or equal to
`ceil(object_size / k)`, and it is below 2^32 (a value of `unsigned int`).  For an
object size of at least 1 it is the smallest multiple of `a`, positive or not,
that is greater than or equal to `ceil(object_size / k)`. -/
theorem get_chunk_size_least_positive {T : Type} (c : ErasureCodeIsa T) (a os : Nat)
    (hk : 1 ≤ c.k) (ha : 1 ≤ a)
    (hfit : ∃ n : Nat, n < 4294967296 ∧ 0 < n ∧ a ∣ n ∧ ⌈(os : ℚ) / (c.k : ℚ)⌉₊ ≤ n) :
    IsLeast {n : Nat | 0 < n ∧ a ∣ n ∧ ⌈(os : ℚ) / (c.k : ℚ)⌉₊ ≤ n}
      (c.get_chunk_size a os) ∧
    c.get_chunk_size a os < 4294967296 ∧
    (1 ≤ os →
      IsLeast {n : Nat | a ∣ n ∧ ⌈(os : ℚ) / (c.k : ℚ)⌉₊ ≤ n} (c.get_chunk_size a os)) := by
  have hl := get_chunk_size_isLeast_pos c a os hk ha
  obtain ⟨n, hn, hpos, hdiv, hge⟩ := hfit
  have hle : c.get_chunk_size a os ≤ n := hl.2 ⟨hpos, hdiv, hge⟩
  refine ⟨hl, by omega, fun hos => ?_⟩
  rw [get_chunk_size_eq_round_up c a os hk hos]
  exact round_up_isLeast _ a ha

/-- C3, amended, at `k = 4`, alignment 32 and object size 4097: the chunk size is
the least positive multiple of 32 that is at least `ceil(4097 / 4)`, it is below
2^32, and it is the least multiple of 32 that is at least `ceil(4097 / 4)`. -/
theorem get_chunk_size_least_positive_witness :
    IsLeast {n : Nat | 0 < n ∧ 32 ∣ n ∧ ⌈((4097 : Nat) : ℚ) / (codec_4_2.k : ℚ)⌉₊ ≤ n}
      (codec_4_2.get_chunk_size 32 4097) ∧
    codec_4_2.get_chunk_size 32 4097 < 4294967296 ∧
    IsLeast {n : Nat | 32 ∣ n ∧ ⌈((4097 : Nat) : ℚ) / (codec_4_2.k : ℚ)⌉₊ ≤ n}
      (codec_4_2.get_chunk_size 32 4097) :=
  have h := get_chunk_size_least_positive codec_4_2.toErasureCodeIsa 32 4097
    (by decide) (by decide)
    ⟨1056, by decide, by decide, by decide, by
      rw [Nat.ceil_le]
      show ((4097 : Nat) : ℚ) / ((4 : Int) : ℚ) ≤ ((1056 : Nat) : ℚ)
      norm_num⟩
  ⟨h.1, h.2.1, h.2.2 (by decide)⟩

/-- C4: for every codec (in particular every codec with `k >= 1`) and every
alignment `a >= 1`, `get_chunk_size(0)` returns the alignment quantum `a`, the
value of `get_alignment()`, and is therefore strictly greater than zero. -/
theorem get_chunk_size_zero_is_alignment {T : Type} (c : ErasureCodeIsa T) (a : Nat)
    (ha : 1 ≤ a) :
    c.get_chunk_size a 0 = a ∧ 0 < c.get_chunk_size a 0 := by
  have h : c.get_chunk_size a 0 = a := by
    unfold ErasureCodeIsa.get_chunk_size
    rw [if_pos rfl]
  rw [h]
  exact ⟨rfl, by omega⟩

/-- C4, at `k = 4` and alignment 32: `get_chunk_size(0)` is 32, which is greater
than zero. -/
theorem get_chunk_size_zero_is_alignment_witness :
    codec_4_2.get_chunk_size 32 0 = 32 ∧ 0 < codec_4_2.get_chunk_size 32 0 :=
  get_chunk_size_zero_is_alignment codec_4_2.toErasureCodeIsa 32 (by decide)
